import Mathlib

/-!
Verification development for the ORD scraper repository.

The definitions below are a shallow embedding of `ord_scraper.py`
(keyword tables, identifier classifiers, the HTML tabular-row evidence
extractor, the structured-record evidence extractor with its per-dataset
aggregation, the result-poll loop, the output filtering of `main`) and of
`string_utils.py` (`shout`).  Python strings are Lean `String`; Python
substring containment `k in v` is list-infix on the character lists; the
regular expressions of the source are translated into explicit character
scanners; Python dictionaries indexed by category and value become total
functions defaulting to `0` / `[]`; machine time in the poll loop is
modelled as exact rational arithmetic over the sleep durations.
-/

/-- Keyword table `AMINE_KEYWORDS` of the source. -/
def AMINE_KEYWORDS : List String :=
  ["amine", "aniline", "nh2", "primary amine", "secondary amine", "tertiary amine"]

/-- Keyword table `ARYL_HALIDE_KEYWORDS` of the source. -/
def ARYL_HALIDE_KEYWORDS : List String :=
  ["aryl halide", "chlorobenz", "bromobenz", "iodobenz", "chloro", "bromo", "iodo", "halide"]

/-- Keyword table `BASE_KEYWORDS` of the source. -/
def BASE_KEYWORDS : List String :=
  ["carbonate", "bicarbonate", "hydroxide", "tert-butoxide", "otbu", "triethylamine",
   "dipea", "hunig", "dbu", "dbn", "k3po4", "k2co3", "cs2co3", "naoh", "koh",
   "naome", "kom e", "lihmds", "nahmds", "sodium hydride"]

/-- Keyword table `METAL_KEYWORDS` of the source. -/
def METAL_KEYWORDS : List String :=
  ["palladium", "pd", "nickel", "ni", "copper", "cu", "iron", "fe",
   "ruthenium", "ru", "iridium", "ir"]

/-- Keyword table `LIGAND_KEYWORDS` of the source. -/
def LIGAND_KEYWORDS : List String :=
  ["phos", "xphos", "sphos", "johnphos", "binap", "dppe", "dppf", "dppp",
   "bipy", "phen", "bipyridine", "phosphine", "pcy3"]

/-- The fixed slot-key-to-category map `INPUT_KEY_CATEGORY_MAP` of the source,
as an association list in source order. -/
def INPUT_KEY_CATEGORY_MAP : List (String × String) :=
  [("base", "Base"), ("solvent", "Solvent"), ("ligand", "Ligand"), ("metal", "Metal"),
   ("catalyst", "Metal"), ("amine", "amine"), ("aryl halide", "aryl halide"),
   ("carboxylic acid", "carboxylic acid"), ("activation agent", "activation agent"),
   ("additive", "additive")]

/-- Python `str.lower` at the character-list level; kernel-reducible, unlike
`String.toLower`, so that concrete instances close by `decide`. -/
def pyLower (s : String) : String := String.mk (s.toList.map Char.toLower)

/-- Infix containment on character lists, used to model Python substring
containment and the regex scanners. -/
def substrL : List Char → List Char → Bool
  | needle, [] => needle.isEmpty
  | needle, c :: rest => List.isPrefixOf needle (c :: rest) || substrL needle rest

/-- Python substring containment `needle in hay` on strings. -/
def substr (needle hay : String) : Bool :=
  substrL needle.toList hay.toList

/-- Scanner for the regex `\[o-\].*\[(na|k|li)\+\]` (search semantics): an
occurrence of the literal `[o-]` followed, anywhere later, by one of the
literals `[na+]`, `[k+]`, `[li+]`. -/
def regexBaseSalt : List Char → Bool
  | [] => false
  | c :: rest =>
    (List.isPrefixOf "[o-]".toList (c :: rest)
      && (substrL "[na+]".toList ((c :: rest).drop 4)
          || substrL "[k+]".toList ((c :: rest).drop 4)
          || substrL "[li+]".toList ((c :: rest).drop 4)))
    || regexBaseSalt rest

/-- Scanner for the regex `c.*(cl|br|i)` (search semantics): a character `c`
followed, strictly later, by an occurrence of `cl`, `br`, or `i`. -/
def regexCHal : List Char → Bool
  | [] => false
  | c :: rest =>
    (c == 'c' && (substrL "cl".toList rest || substrL "br".toList rest
                  || substrL "i".toList rest))
    || regexCHal rest

/-- `_is_base_ident` of the source: base keywords, or the alkoxide-salt
pattern, or the consolidated regex `(carbonate|hydroxide|hmds|otbu|tert-?butoxide)`. -/
def is_base_ident (value : String) : Bool :=
  let v := pyLower value
  BASE_KEYWORDS.any (fun k => substr k v)
  || regexBaseSalt v.toList
  || (substr "carbonate" v || substr "hydroxide" v || substr "hmds" v
      || substr "otbu" v || substr "tert-butoxide" v || substr "tertbutoxide" v)

/-- `_is_amine_ident` of the source: amine keywords or the regex `n[h]?2`
(an occurrence of `nh2` or `n2`). -/
def is_amine_ident (value : String) : Bool :=
  let v := pyLower value
  AMINE_KEYWORDS.any (fun k => substr k v) || substr "nh2" v || substr "n2" v

/-- `_is_aryl_halide_ident` of the source: aryl-halide keywords or the regex
`c.*(cl|br|i)`. -/
def is_aryl_halide_ident (value : String) : Bool :=
  let v := pyLower value
  ARYL_HALIDE_KEYWORDS.any (fun k => substr k v) || regexCHal v.toList

/-- `_is_metal_ident` of the source. -/
def is_metal_ident (value : String) : Bool :=
  let v := pyLower value
  METAL_KEYWORDS.any (fun k => substr k v)

/-- `_is_ligand_ident` of the source. -/
def is_ligand_ident (value : String) : Bool :=
  let v := pyLower value
  LIGAND_KEYWORDS.any (fun k => substr k v)

/-- `_classify_from_text` of the source: the HTML-path text classifier.
Direct mapping for the typed labels; for reagent or reactant labels a
priority cascade Base, amine, Ligand, Metal, aryl halide returning the
first match only. -/
def classify_from_text (name label : String) : Option String :=
  let lv := pyLower label
  let nm := pyLower name
  if lv = "solvent" then some "Solvent"
  else if lv = "ligand" then some "Ligand"
  else if lv = "metal" then some "Metal"
  else if lv = "base" then some "Base"
  else if lv = "reagent" ∨ lv = "reactant" then
    if BASE_KEYWORDS.any (fun k => substr k nm) then some "Base"
    else if AMINE_KEYWORDS.any (fun k => substr k nm) then some "amine"
    else if LIGAND_KEYWORDS.any (fun k => substr k nm) then some "Ligand"
    else if METAL_KEYWORDS.any (fun k => substr k nm) then some "Metal"
    else if ARYL_HALIDE_KEYWORDS.any (fun k => substr k nm)
            || (substr "br" nm && substr "c" nm)
            || (substr "cl" nm && substr "c" nm)
            || (substr "i" nm && substr "c" nm) then some "aryl halide"
    else none
  else none

/-- The pattern `[0-9 .%]+` under `re.fullmatch`: nonempty and every
character a digit, space, dot, or percent sign. -/
def numericLike (v : String) : Bool :=
  !v.isEmpty && v.toList.all (fun c => c.isDigit || c == ' ' || c == '.' || c == '%')

/-- `_pick_name_from_cells` of the source: first cell value that is nonempty,
not fully numeric or percent-like, and not itself a role-label word. -/
def pick_name_from_cells : List String → Option String
  | [] => none
  | v :: rest =>
    if v = "" then pick_name_from_cells rest
    else if numericLike v then pick_name_from_cells rest
    else if ["reagent", "reactant", "solvent", "ligand", "metal", "base"].contains (pyLower v)
      then pick_name_from_cells rest
    else some v

/-- The six role labels recognised by the tabular-row scan of
`extract_components`, in source order. -/
def ROW_LABELS : List String := ["solvent", "reagent", "reactant", "ligand", "metal", "base"]

/-- The reverse scan of `extract_components` that finds the row label: the
first cell, scanning from the right, whose lowercase form is a role label. -/
def findLabel (cells : List String) : Option String :=
  cells.reverse.find? (fun v => ROW_LABELS.contains (pyLower v))

/-- One tabular-row step of `extract_components`: find the label by reverse
scan, pick the name from all cells but the last, fall back to the first
hyperlink text, classify, and emit the (category, name) pair when both are
present and the name is nonempty (Python truthiness). -/
def processRow (cells : List String) (linkText : Option String) : Option (String × String) :=
  if cells = [] then none
  else
    match findLabel cells with
    | none => none
    | some label =>
      let name : Option String :=
        match pick_name_from_cells cells.dropLast with
        | some n => some n
        | none => linkText
      match classify_from_text (name.getD "") label, name with
      | some cat, some n => if n = "" then none else some (cat, n)
      | _, _ => none

/-- The tabular pass of `extract_components` over a list of rows, each row
given by its cell texts and the text of its first hyperlink when one
exists; accumulates the per-category name counters. -/
def extract_components_rows (rows : List (List String × Option String)) :
    String → String → Nat :=
  rows.foldl
    (fun acc row =>
      match processRow row.1 row.2 with
      | some (cat, nm) => fun c v => if c = cat ∧ v = nm then acc c v + 1 else acc c v
      | none => acc)
    (fun _ _ => 0)

/-- One chemical identifier of a component, carrying the decoded identifier
type name and the value string, as built at lines 300-303 of the source. -/
structure IdentRec where
  type : String
  value : String
deriving DecidableEq

/-- One component of an input slot: the decoded reaction-role name and its
identifiers. -/
structure ComponentRec where
  role : String
  identifiers : List IdentRec
deriving DecidableEq

/-- One named input slot of a decoded reaction record. -/
structure InputSlot where
  key : String
  components : List ComponentRec
deriving DecidableEq

/-- One evidence item appended to a raw list, with the fields of the source
dictionaries. -/
structure EvidenceItem where
  reaction_id : String
  input_key : String
  reaction_role : String
  identifier_type : String
  value : String
deriving DecidableEq

/-- The accumulation state of `aggregate_dataset`: the `agg_counts`
defaultdict of Counters and the `raw` defaultdict of lists, both as total
functions (missing keys read as `0` / `[]`). -/
structure AggState where
  counts : String → String → Nat
  raw : String → List EvidenceItem

/-- The empty aggregate both defaultdicts start from. -/
def emptyAgg : AggState := ⟨fun _ _ => 0, fun _ => []⟩

/-- The evidence dictionary built at each append site of the source. -/
def mkEvidence (rid k role : String) (id : IdentRec) : EvidenceItem :=
  ⟨rid, k, role, id.type, id.value⟩

/-- The single accumulation step of the source: append the item to
`raw[cat]` and increment `counts[cat][value]`. -/
def emit (st : AggState) (cat : String) (ev : EvidenceItem) : AggState :=
  { counts := fun c v => if c = cat ∧ v = ev.value then st.counts c v + 1 else st.counts c v
    raw := fun c => if c = cat then st.raw c ++ [ev] else st.raw c }

/-- Full match of one underscore-separated part against `(?i)m\d+`. -/
def isMPart : List Char → Bool
  | c :: d :: rest => (c == 'm' || c == 'M') && d.isDigit && rest.all Char.isDigit
  | _ => false

/-- Full match of a slot key against the structural pattern
`(?i)m\d+(?:_m\d+)*`: splitting on underscores yields parts that each fully
match `(?i)m\d+` (parts contain no underscore, so this is equivalent to the
anchored regex). -/
def structKeyMatch (k : String) : Bool :=
  (k.toList.splitOn '_').all isMPart

/-- The slot-category determination of lines 304-306 of the source: the
fixed map on the lowercased key, else the key itself when it matches the
structural pattern. -/
def slotCategory (k : String) : Option String :=
  match INPUT_KEY_CATEGORY_MAP.lookup (pyLower k) with
  | some c => some c
  | none => if structKeyMatch k then some k else none

/-- Per-identifier accumulation when a slot category was found
(lines 307-311 of the source): emit for exactly that category. -/
def processIdentKeyed (rid k role cat : String) (st : AggState) (id : IdentRec) : AggState :=
  emit st cat (mkEvidence rid k role id)

/-- Per-identifier accumulation when no slot category was found
(lines 312-334 of the source): dispatch on the declared reaction role, with
independent keyword tests for the catalyst and reagent or reactant roles. -/
def processIdentFallback (rid k role : String) (st : AggState) (id : IdentRec) : AggState :=
  let v := id.value
  let ev := mkEvidence rid k role id
  if role = "SOLVENT" then emit st "Solvent" ev
  else if role = "CATALYST" then
    let st1 := if is_metal_ident v then emit st "Metal" ev else st
    if is_ligand_ident v then emit st1 "Ligand" ev else st1
  else if role = "REAGENT" ∨ role = "REACTANT" then
    let st1 := if is_base_ident v then emit st "Base" ev else st
    let st2 := if is_amine_ident v then emit st1 "amine" ev else st1
    if is_aryl_halide_ident v then emit st2 "aryl halide" ev else st2
  else st

/-- Accumulation over one component of a slot: the keyed branch when the
slot has a category, else the role-dispatch branch, over the identifiers in
order. -/
def processComponent (rid k : String) (st : AggState) (comp : ComponentRec) : AggState :=
  match slotCategory k with
  | some cat => comp.identifiers.foldl (processIdentKeyed rid k comp.role cat) st
  | none => comp.identifiers.foldl (processIdentFallback rid k comp.role) st

/-- Accumulation over one input slot: its components in order. -/
def processSlot (rid : String) (st : AggState) (slot : InputSlot) : AggState :=
  slot.components.foldl (processComponent rid slot.key) st

/-- One fetched record as the aggregation loop sees it: either skipped
(missing reaction id, missing proto payload, decoder unavailable, or a
decode exception) or decoded into its reaction id and input slots. -/
inductive RecordItem where
  | skipped : RecordItem
  | decoded (rid : String) (inputs : List InputSlot) : RecordItem
deriving DecidableEq

/-- One iteration of the item loop of `aggregate_dataset`. -/
def processItem (st : AggState) : RecordItem → AggState
  | .skipped => st
  | .decoded rid inputs => inputs.foldl (processSlot rid) st

/-- The accumulation core of `aggregate_dataset` of the source: fold the
fetched items into the two views, starting from the empty aggregate. -/
def aggregate_dataset (items : List RecordItem) : AggState :=
  items.foldl processItem emptyAgg

/-- The flat list of evidence items a keyed slot contributes: one per
identifier per component, in traversal order. -/
def slotEvidence (rid k : String) (comps : List ComponentRec) : List EvidenceItem :=
  (comps.map (fun comp => comp.identifiers.map (mkEvidence rid k comp.role))).flatten

/-- One response of the result-polling endpoint, by HTTP status: `ready`
(200, with the decoded payload), `notReady` (202), `notFound` (404), or
any `other` status code. -/
inductive PollResponse where
  | ready (payload : List String) : PollResponse
  | notReady : PollResponse
  | notFound : PollResponse
  | other (code : Nat) : PollResponse
deriving DecidableEq

/-- The outcome of `fetch_query_result`: the returned payload, one of the
three raised failures, or `exhausted` when the modelled response sequence
ran out before the loop settled. -/
inductive PollOutcome where
  | success (payload : List String) : PollOutcome
  | notFoundErr : PollOutcome
  | unexpectedErr (code : Nat) : PollOutcome
  | timeoutErr : PollOutcome
  | exhausted : PollOutcome
deriving DecidableEq

/-- The polling loop of `fetch_query_result`, over an explicit sequence of
responses.  Time is the exact sum of the sleeps: `elapsed` is the value of
`time.time() - t0`, `delay` the current backoff (initially `0.5`, then
`min 5.0 (delay * 1.5)`), and the timeout test `elapsed > timeout` runs at
the end of a not-ready iteration, after the sleep, exactly as in the
source; ready, not-found and unexpected responses return or raise before
that test is reached. -/
def fetch_query_result_loop : List PollResponse → ℚ → ℚ → ℚ → PollOutcome
  | [], _, _, _ => .exhausted
  | resp :: rest, timeout, elapsed, delay =>
    match resp with
    | .ready p => .success p
    | .notFound => .notFoundErr
    | .other c => .unexpectedErr c
    | .notReady =>
      if elapsed + delay > timeout then .timeoutErr
      else fetch_query_result_loop rest timeout (elapsed + delay) (min 5 (delay * (3 / 2)))

/-- `fetch_query_result` of the source, entered with zero elapsed time and
the initial half-second delay. -/
def fetch_query_result (resps : List PollResponse) (timeout : ℚ) : PollOutcome :=
  fetch_query_result_loop resps timeout 0 (1 / 2)

/-- The backoff delay slept after the `n`-th consecutive not-ready
response (zero-based). -/
def delaySeq : ℕ → ℚ
  | 0 => 1 / 2
  | n + 1 => min 5 (delaySeq n * (3 / 2))

/-- Elapsed time after `n` consecutive not-ready responses: the sum of the
first `n` backoff delays. -/
def elapsedAfter : ℕ → ℚ
  | 0 => 0
  | n + 1 => elapsedAfter n + delaySeq n

/-- The identifier-type test of the `--smiles_only` filter in `main`. -/
def isSmilesItem (e : EvidenceItem) : Bool := e.identifier_type = "SMILES"

/-- The per-dataset output assembly of `main` (lines 363-374 of the
source): under `--base_only` keep only the Base tables, filtering the raw
list by identifier type when `--smiles_only` is also set; otherwise under
`--smiles_only` filter every raw list by identifier type and leave the
counts untouched; otherwise pass the aggregate through. -/
def datasetOutput (baseOnly smilesOnly : Bool) (a : AggState) : AggState :=
  if baseOnly then
    { counts := fun c v => if c = "Base" then a.counts "Base" v else 0
      raw := fun c =>
        if c = "Base" then (a.raw "Base").filter (fun x => !smilesOnly || isSmilesItem x)
        else [] }
  else if smilesOnly then
    { a with raw := fun c => (a.raw c).filter isSmilesItem }
  else a

/-- The dataset loop of `main`: each dataset id is processed independently;
`f` gives the outcome of `aggregate_dataset` for an id (`none` when any
exception was raised during its processing), in which case the `except`
clause drops the id and the loop continues with the rest. -/
def collectResults (baseOnly smilesOnly : Bool) (f : String → Option AggState) :
    List String → List (String × AggState)
  | [] => []
  | did :: rest =>
    match f did with
    | some a => (did, datasetOutput baseOnly smilesOnly a) :: collectResults baseOnly smilesOnly f rest
    | none => collectResults baseOnly smilesOnly f rest

/-- A Python value passed to `shout`: a string, or a value of any
non-string type (tagged by its type name). -/
inductive PyVal where
  | str (s : String) : PyVal
  | nonStr (typeName : String) : PyVal
deriving DecidableEq

/-- Python `str.upper`, modelled character by character. -/
def pyUpper (s : String) : String := String.mk (s.toList.map Char.toUpper)

/-- `shout` of `string_utils.py`: raise `TypeError` on a non-string input,
else return the uppercased string. -/
def shout : PyVal → Except String String
  | .str s => .ok (pyUpper s)
  | .nonStr _ => .error "TypeError: s must be a string"

/-- The lock-step invariant of the two views of an aggregate: every count is
the number of raw items of that category with that value. -/
def AggInv (st : AggState) : Prop :=
  ∀ c v, st.counts c v = (st.raw c).countP (fun e => e.value = v)

theorem aggInv_empty : AggInv emptyAgg := by
  intro c v
  simp [emptyAgg]

theorem aggInv_emit (st : AggState) (cat : String) (ev : EvidenceItem)
    (h : AggInv st) : AggInv (emit st cat ev) := by
  intro c v
  simp only [emit]
  by_cases hc : c = cat
  · subst hc
    by_cases hv : v = ev.value
    · subst hv
      simp [List.countP_append, h c ev.value, List.countP_cons]
    · have hne : ¬ ev.value = v := fun hx => hv hx.symm
      simp [hv, hne, List.countP_append, h c v, List.countP_cons]
  · simp [hc, h c v]

theorem aggInv_foldl {α : Type} (f : AggState → α → AggState)
    (hf : ∀ st a, AggInv st → AggInv (f st a)) :
    ∀ (l : List α) (st : AggState), AggInv st → AggInv (l.foldl f st) := by
  intro l
  induction l with
  | nil => intro st h; simpa using h
  | cons a t ih => intro st h; exact ih _ (hf _ _ h)

theorem aggInv_processIdentFallback (rid k role : String) (st : AggState)
    (id : IdentRec) (h : AggInv st) : AggInv (processIdentFallback rid k role st id) := by
  unfold processIdentFallback
  split_ifs <;> dsimp only <;> (try split_ifs) <;>
    repeat (first | exact h | apply aggInv_emit)

theorem aggInv_processComponent (rid k : String) (st : AggState)
    (comp : ComponentRec) (h : AggInv st) : AggInv (processComponent rid k st comp) := by
  unfold processComponent
  cases hsc : slotCategory k with
  | some cat =>
    exact aggInv_foldl _ (fun st a ha => aggInv_emit st cat _ ha) _ _ h
  | none =>
    exact aggInv_foldl _ (fun st a ha => aggInv_processIdentFallback rid k comp.role st a ha) _ _ h

theorem aggInv_processSlot (rid : String) (st : AggState) (slot : InputSlot)
    (h : AggInv st) : AggInv (processSlot rid st slot) :=
  aggInv_foldl _ (fun st a ha => aggInv_processComponent rid slot.key st a ha) _ _ h

theorem aggInv_processItem (st : AggState) (item : RecordItem)
    (h : AggInv st) : AggInv (processItem st item) := by
  cases item with
  | skipped => exact h
  | decoded rid inputs =>
    exact aggInv_foldl _ (fun st a ha => aggInv_processSlot rid st a ha) _ _ h

/-- Claim C1: in the aggregate produced by `aggregate_dataset` (before any
output filtering), for every category and value string the count equals the
number of evidence items in the raw list of that category whose value field
is that string; the two views stay in lock-step because each increment of a
count is paired with exactly one append to the corresponding raw list. -/
theorem C1_counts_match_raw (items : List RecordItem) (cat v : String) :
    (aggregate_dataset items).counts cat v =
      ((aggregate_dataset items).raw cat).countP (fun e => e.value = v) := by
  have h : AggInv (aggregate_dataset items) :=
    aggInv_foldl processItem aggInv_processItem items emptyAgg aggInv_empty
  exact h cat v

theorem raw_foldl_keyed (rid k role cat : String) :
    ∀ (ids : List IdentRec) (st : AggState) (c : String),
      ((ids.foldl (processIdentKeyed rid k role cat) st).raw c) =
        (if c = cat then st.raw c ++ ids.map (mkEvidence rid k role) else st.raw c) := by
  intro ids
  induction ids with
  | nil => intro st c; by_cases hc : c = cat <;> simp [hc]
  | cons id t ih =>
    intro st c
    simp only [List.foldl_cons]
    rw [ih]
    by_cases hc : c = cat <;>
      simp [hc, processIdentKeyed, emit]

theorem raw_foldl_comps (rid k cat : String) (hk : slotCategory k = some cat) :
    ∀ (comps : List ComponentRec) (st : AggState) (c : String),
      ((comps.foldl (processComponent rid k) st).raw c) =
        (if c = cat then st.raw c ++ slotEvidence rid k comps else st.raw c) := by
  intro comps
  induction comps with
  | nil => intro st c; by_cases hc : c = cat <;> simp [hc, slotEvidence]
  | cons comp t ih =>
    intro st c
    simp only [List.foldl_cons]
    rw [ih]
    have hpc : processComponent rid k st comp
        = comp.identifiers.foldl (processIdentKeyed rid k comp.role cat) st := by
      unfold processComponent
      rw [hk]
    rw [hpc, raw_foldl_keyed]
    by_cases hc : c = cat <;> simp [hc, slotEvidence]

/-- Claim C2: when the slot key has a category from the fixed key map or the
structural pattern, every identifier value under every component of the
slot is emitted as evidence for exactly that category — the raw list of
that category is extended by one item per identifier per component,
independent of each value and of each declared role, and every other
category is untouched; no keyword test participates. -/
theorem C2_slot_category_wins (rid : String) (st : AggState) (slot : InputSlot)
    (cat : String) (h : slotCategory slot.key = some cat) (c : String) :
    (processSlot rid st slot).raw c =
      (if c = cat then st.raw c ++ slotEvidence rid slot.key slot.components
       else st.raw c) := by
  unfold processSlot
  exact raw_foldl_comps rid slot.key cat h slot.components st c

/-- Witness for C2 at a concrete slot: key `Base`, a component with the
unrelated role `PRODUCT` and identifier value `water`; the item lands under
category `Base` regardless. -/
theorem C2_slot_category_wins_witness :
    (processSlot "r1" emptyAgg ⟨"Base", [⟨"PRODUCT", [⟨"NAME", "water"⟩]⟩]⟩).raw "Base" =
      (if ("Base" : String) = "Base" then
        emptyAgg.raw "Base" ++ slotEvidence "r1" "Base" [⟨"PRODUCT", [⟨"NAME", "water"⟩]⟩]
       else emptyAgg.raw "Base") :=
  C2_slot_category_wins "r1" emptyAgg ⟨"Base", [⟨"PRODUCT", [⟨"NAME", "water"⟩]⟩]⟩ "Base"
    (by decide) "Base"

/-- Claim C3: for a component whose role is REAGENT or REACTANT inside a
slot with no slot category, the Base, amine, and aryl halide tests run
independently and evidence is emitted for every category whose test
matches, all other categories staying untouched; in particular the value
`triethylamine` passes both the Base test and the amine test and so yields
evidence for both categories. -/
theorem C3_reagent_tests_independent :
    (∀ (rid k role : String) (st : AggState) (id : IdentRec),
        slotCategory k = none → role = "REAGENT" ∨ role = "REACTANT" →
        ((processComponent rid k st ⟨role, [id]⟩).raw "Base"
            = st.raw "Base"
              ++ (if is_base_ident id.value then [mkEvidence rid k role id] else []))
        ∧ ((processComponent rid k st ⟨role, [id]⟩).raw "amine"
            = st.raw "amine"
              ++ (if is_amine_ident id.value then [mkEvidence rid k role id] else []))
        ∧ ((processComponent rid k st ⟨role, [id]⟩).raw "aryl halide"
            = st.raw "aryl halide"
              ++ (if is_aryl_halide_ident id.value then [mkEvidence rid k role id] else []))
        ∧ (∀ c, c ≠ "Base" → c ≠ "amine" → c ≠ "aryl halide" →
            (processComponent rid k st ⟨role, [id]⟩).raw c = st.raw c))
    ∧ is_base_ident "triethylamine" = true
    ∧ is_amine_ident "triethylamine" = true
    ∧ (processComponent "r1" "mix" emptyAgg ⟨"REAGENT", [⟨"NAME", "triethylamine"⟩]⟩).raw "Base"
        = [⟨"r1", "mix", "REAGENT", "NAME", "triethylamine"⟩]
    ∧ (processComponent "r1" "mix" emptyAgg ⟨"REAGENT", [⟨"NAME", "triethylamine"⟩]⟩).raw "amine"
        = [⟨"r1", "mix", "REAGENT", "NAME", "triethylamine"⟩] := by
  refine ⟨?_, by decide, by decide, by decide, by decide⟩
  intro rid k role st id hk hrole
  have hrest : processComponent rid k st ⟨role, [id]⟩
      = processIdentFallback rid k role st id := by
    unfold processComponent
    rw [hk]
    rfl
  have hns : role ≠ "SOLVENT" := by rcases hrole with h | h <;> subst h <;> decide
  have hnc : role ≠ "CATALYST" := by rcases hrole with h | h <;> subst h <;> decide
  rw [hrest]
  unfold processIdentFallback
  rw [if_neg hns, if_neg hnc, if_pos hrole]
  dsimp only
  refine ⟨?_, ?_, ?_, ?_⟩
  · cases hb : is_base_ident id.value <;>
      cases ha : is_amine_ident id.value <;>
      cases har : is_aryl_halide_ident id.value <;>
      simp [hb, ha, har, emit]
  · cases hb : is_base_ident id.value <;>
      cases ha : is_amine_ident id.value <;>
      cases har : is_aryl_halide_ident id.value <;>
      simp [hb, ha, har, emit]
  · cases hb : is_base_ident id.value <;>
      cases ha : is_amine_ident id.value <;>
      cases har : is_aryl_halide_ident id.value <;>
      simp [hb, ha, har, emit]
  · intro c hc1 hc2 hc3
    cases hb : is_base_ident id.value <;>
      cases ha : is_amine_ident id.value <;>
      cases har : is_aryl_halide_ident id.value <;>
      simp [hb, ha, har, emit, hc1, hc2, hc3]

/-- Witness for the quantified part of C3: role REACTANT, slot key without
a category, identifier value `koh`. -/
theorem C3_reagent_tests_independent_witness :
    (processComponent "r2" "stuff" emptyAgg ⟨"REACTANT", [⟨"NAME", "koh"⟩]⟩).raw "Base"
      = emptyAgg.raw "Base"
        ++ (if is_base_ident "koh" then [mkEvidence "r2" "stuff" "REACTANT" ⟨"NAME", "koh"⟩]
            else []) :=
  (C3_reagent_tests_independent.1 "r2" "stuff" "REACTANT" emptyAgg ⟨"NAME", "koh"⟩
    (by decide) (Or.inr rfl)).1

/-- Claim C4: in the HTML-path text classifier, for a reagent or reactant
label the keyword tests run in the fixed priority order Base, amine,
Ligand, Metal, aryl-halide-or-halogen-heuristic, and only the first
matching category is returned — at most one category per row, unlike the
union of the structured path; in particular a name matching both a Base
keyword and an amine keyword, such as `triethylamine`, yields only Base. -/
theorem C4_html_priority_first_match :
    (∀ (name label : String), pyLower label = "reagent" ∨ pyLower label = "reactant" →
        (BASE_KEYWORDS.any (fun k => substr k (pyLower name)) = true →
            classify_from_text name label = some "Base")
        ∧ (BASE_KEYWORDS.any (fun k => substr k (pyLower name)) = false →
            AMINE_KEYWORDS.any (fun k => substr k (pyLower name)) = true →
            classify_from_text name label = some "amine")
        ∧ (BASE_KEYWORDS.any (fun k => substr k (pyLower name)) = false →
            AMINE_KEYWORDS.any (fun k => substr k (pyLower name)) = false →
            LIGAND_KEYWORDS.any (fun k => substr k (pyLower name)) = true →
            classify_from_text name label = some "Ligand")
        ∧ (BASE_KEYWORDS.any (fun k => substr k (pyLower name)) = false →
            AMINE_KEYWORDS.any (fun k => substr k (pyLower name)) = false →
            LIGAND_KEYWORDS.any (fun k => substr k (pyLower name)) = false →
            METAL_KEYWORDS.any (fun k => substr k (pyLower name)) = true →
            classify_from_text name label = some "Metal")
        ∧ (BASE_KEYWORDS.any (fun k => substr k (pyLower name)) = false →
            AMINE_KEYWORDS.any (fun k => substr k (pyLower name)) = false →
            LIGAND_KEYWORDS.any (fun k => substr k (pyLower name)) = false →
            METAL_KEYWORDS.any (fun k => substr k (pyLower name)) = false →
            (ARYL_HALIDE_KEYWORDS.any (fun k => substr k (pyLower name))
              || (substr "br" (pyLower name) && substr "c" (pyLower name))
              || (substr "cl" (pyLower name) && substr "c" (pyLower name))
              || (substr "i" (pyLower name) && substr "c" (pyLower name))) = true →
            classify_from_text name label = some "aryl halide")
        ∧ (BASE_KEYWORDS.any (fun k => substr k (pyLower name)) = false →
            AMINE_KEYWORDS.any (fun k => substr k (pyLower name)) = false →
            LIGAND_KEYWORDS.any (fun k => substr k (pyLower name)) = false →
            METAL_KEYWORDS.any (fun k => substr k (pyLower name)) = false →
            (ARYL_HALIDE_KEYWORDS.any (fun k => substr k (pyLower name))
              || (substr "br" (pyLower name) && substr "c" (pyLower name))
              || (substr "cl" (pyLower name) && substr "c" (pyLower name))
              || (substr "i" (pyLower name) && substr "c" (pyLower name))) = false →
            classify_from_text name label = none))
    ∧ BASE_KEYWORDS.any (fun k => substr k (pyLower "triethylamine")) = true
    ∧ AMINE_KEYWORDS.any (fun k => substr k (pyLower "triethylamine")) = true
    ∧ classify_from_text "triethylamine" "Reagent" = some "Base" := by
  refine ⟨?_, by decide, by decide, by decide⟩
  intro name label hl
  have hor : (pyLower label = "reagent" ∨ pyLower label = "reactant") := hl
  have h1 : pyLower label ≠ "solvent" := by rcases hl with h | h <;> rw [h] <;> decide
  have h2 : pyLower label ≠ "ligand" := by rcases hl with h | h <;> rw [h] <;> decide
  have h3 : pyLower label ≠ "metal" := by rcases hl with h | h <;> rw [h] <;> decide
  have h4 : pyLower label ≠ "base" := by rcases hl with h | h <;> rw [h] <;> decide
  unfold classify_from_text
  rw [if_neg h1, if_neg h2, if_neg h3, if_neg h4, if_pos hor]
  refine ⟨fun hb => by simp [hb],
          fun hb ha => by simp [hb, ha],
          fun hb ha hli => by simp [hb, ha, hli],
          fun hb ha hli hm => by simp [hb, ha, hli, hm],
          fun hb ha hli hm hha => by rw [hb, ha, hli, hm, hha]; simp,
          fun hb ha hli hm hha => by rw [hb, ha, hli, hm, hha]; simp⟩

/-- Witness for the quantified part of C4: the classifier at the concrete
reagent row name `triethylamine` returns Base although the amine test also
matches. -/
theorem C4_html_priority_first_match_witness :
    classify_from_text "triethylamine" "Reagent" = some "Base" :=
  (C4_html_priority_first_match.1 "triethylamine" "Reagent" (Or.inl (by decide))).1 (by decide)

/-- Counterexample to claim C5: in the row `["1.0 eq", "K2CO3", "Reagent"]`
the cell `1.0 eq` does NOT fully match the numeric or percent pattern (the
letters `eq` are outside the character class), so the name scan picks
`1.0 eq` rather than skipping it, and no (Base, K2CO3) evidence is
recorded — the count stays 0, not 1.  Moreover `carbonate` is not a
substring of `k2co3`; the Base keyword that would have matched `K2CO3` is
`k2co3` itself. -/
theorem C5_counterexample :
    numericLike "1.0 eq" = false
    ∧ pick_name_from_cells ["1.0 eq", "K2CO3"] = some "1.0 eq"
    ∧ substr "carbonate" (pyLower "K2CO3") = false
    ∧ extract_components_rows [(["1.0 eq", "K2CO3", "Reagent"], none)] "Base" "K2CO3" = 0 := by
  decide

/-- Claim C5 as amended: for the tabular row `["1.0 eq", "K2CO3", "Reagent"]`
the extractor takes `Reagent` as the label, but the name candidate scan does
not skip `1.0 eq` (the letters keep it from fully matching the
numeric or percent pattern) and picks `1.0 eq` as the name; the keyword
path finds no category for `1.0 eq`, so no evidence at all is recorded and
every count stays 0.  (Had the name scan reached `K2CO3`, the Base keyword
matching it would be `k2co3`, not `carbonate`.) -/
theorem C5_amended_no_evidence :
    findLabel ["1.0 eq", "K2CO3", "Reagent"] = some "Reagent"
    ∧ pick_name_from_cells ["1.0 eq", "K2CO3"] = some "1.0 eq"
    ∧ classify_from_text "1.0 eq" "Reagent" = none
    ∧ processRow ["1.0 eq", "K2CO3", "Reagent"] none = none
    ∧ substr "k2co3" (pyLower "K2CO3") = true
    ∧ classify_from_text "K2CO3" "Reagent" = some "Base"
    ∧ ∀ c v, extract_components_rows [(["1.0 eq", "K2CO3", "Reagent"], none)] c v = 0 := by
  refine ⟨by decide, by decide, by decide, by decide, by decide, by decide, ?_⟩
  intro c v
  have h : processRow ["1.0 eq", "K2CO3", "Reagent"] none = none := by decide
  simp [extract_components_rows, h]

theorem pick_name_mem : ∀ (l : List String) (n : String),
    pick_name_from_cells l = some n → n ∈ l := by
  intro l
  induction l with
  | nil => intro n h; simp [pick_name_from_cells] at h
  | cons v rest ih =>
    intro n h
    unfold pick_name_from_cells at h
    split_ifs at h
    · exact List.mem_cons_of_mem _ (ih n h)
    · exact List.mem_cons_of_mem _ (ih n h)
    · exact List.mem_cons_of_mem _ (ih n h)
    · cases h
      exact List.mem_cons_self _ _

/-- Counterexample to claim C6: in the row `["Reagent", "chlorobenzene"]`
the label cell is the first cell, not the last; the last cell holds the
qualifying name `chlorobenzene` (nonempty, not numeric, not a role label,
and classifiable as aryl halide under the reagent label), yet the extractor
emits nothing, because the name scan drops the last cell rather than the
label cell. -/
theorem C6_counterexample :
    findLabel ["Reagent", "chlorobenzene"] = some "Reagent"
    ∧ List.getLast? ["Reagent", "chlorobenzene"] = some "chlorobenzene"
    ∧ numericLike "chlorobenzene" = false
    ∧ ROW_LABELS.contains (pyLower "chlorobenzene") = false
    ∧ classify_from_text "chlorobenzene" "Reagent" = some "aryl halide"
    ∧ processRow ["Reagent", "chlorobenzene"] none = none := by
  decide

/-- Claim C6 as amended: the entity-name scan considers exactly the cells
before the last cell (role-label words among them are additionally skipped
inside the scan); a qualifying name in the last cell is never picked by the
scan, even when the label cell is not the last cell — any name the row
yields comes from a cell before the last one or from the hyperlink
fallback. -/
theorem C6_name_not_from_last_cell (cells : List String) (link : Option String)
    (cat n : String) (h : processRow cells link = some (cat, n)) :
    n ∈ cells.dropLast ∨ link = some n := by
  unfold processRow at h
  by_cases hc : cells = []
  · rw [if_pos hc] at h
    exact absurd h (by simp)
  · rw [if_neg hc] at h
    cases hfl : findLabel cells with
    | none => rw [hfl] at h; exact absurd h (by simp)
    | some label =>
      rw [hfl] at h
      cases hp : pick_name_from_cells cells.dropLast with
      | some m =>
        simp only [hp, Option.getD_some] at h
        cases hcl : classify_from_text m label with
        | none => rw [hcl] at h; exact absurd h (by simp)
        | some cat2 =>
          rw [hcl] at h
          dsimp only at h
          split_ifs at h
          cases h
          exact Or.inl (pick_name_mem _ _ hp)
      | none =>
        simp only [hp] at h
        cases link with
        | none => exact absurd h (by simp)
        | some t =>
          simp only [Option.getD_some] at h
          cases hcl : classify_from_text t label with
          | none => rw [hcl] at h; exact absurd h (by simp)
          | some cat2 =>
            rw [hcl] at h
            dsimp only at h
            split_ifs at h
            cases h
            exact Or.inr rfl

/-- Witness for the amended C6: the row `["K2CO3", "Reagent"]` yields the
pair (Base, K2CO3), and the name comes from a cell before the last one. -/
theorem C6_name_not_from_last_cell_witness :
    ("K2CO3" : String) ∈ (["K2CO3", "Reagent"] : List String).dropLast
      ∨ (none : Option String) = some "K2CO3" :=
  C6_name_not_from_last_cell ["K2CO3", "Reagent"] none "Base" "K2CO3" (by decide)

/-- Claim C7: when only the identifier-type (SMILES-only) output filter is
applied to an aggregate, every raw evidence list is replaced by its sublist
of items whose identifier type is SMILES, while every counts table is left
completely unchanged — the counts are not recomputed from the filtered raw
lists. -/
theorem C7_smiles_filter_leaves_counts (a : AggState) :
    (∀ c v, (datasetOutput false true a).counts c v = a.counts c v)
    ∧ (∀ c, (datasetOutput false true a).raw c = (a.raw c).filter isSmilesItem) := by
  constructor <;> intros <;> simp [datasetOutput]

theorem collect_mem_has_some (bo so : Bool) (f : String → Option AggState) :
    ∀ (ids : List String) (p : String × AggState),
      p ∈ collectResults bo so f ids → ∃ a, f p.1 = some a := by
  intro ids
  induction ids with
  | nil => intro p h; simp [collectResults] at h
  | cons did rest ih =>
    intro p h
    unfold collectResults at h
    cases hf : f did with
    | some a =>
      rw [hf] at h
      rcases List.mem_cons.mp h with h1 | h1
      · subst h1; exact ⟨a, hf⟩
      · exact ih p h1
    | none =>
      rw [hf] at h
      exact ih p h

/-- Claim C8: if processing of a dataset D fails (the per-dataset function
yields no aggregate), D is simply absent from the final result and the run
continues — the list of collected results over any target list containing D
equals the one over the same list with D removed, and no collected entry is
keyed by D. -/
theorem C8_failed_dataset_isolated (bo so : Bool) (f : String → Option AggState)
    (ids1 ids2 : List String) (D : String) (hD : f D = none) :
    collectResults bo so f (ids1 ++ D :: ids2) = collectResults bo so f (ids1 ++ ids2)
    ∧ ∀ p ∈ collectResults bo so f (ids1 ++ D :: ids2), p.1 ≠ D := by
  constructor
  · induction ids1 with
    | nil => simp [collectResults, hD]
    | cons a t ih =>
      simp only [List.cons_append]
      unfold collectResults
      cases hf : f a <;> simp [ih]
  · intro p hp
    rcases collect_mem_has_some bo so f _ p hp with ⟨a, ha⟩
    intro hcontra
    rw [hcontra, hD] at ha
    exact Option.noConfusion ha

/-- A concrete per-dataset outcome map for the C8 witness: the dataset
`bad` raises, every other dataset aggregates to the empty aggregate. -/
def exampleOutcome : String → Option AggState :=
  fun s => if s = "bad" then none else some emptyAgg

/-- Witness for C8: with datasets `a`, `bad`, `b` and `bad` failing, the
collected results equal those of the run without `bad`. -/
theorem C8_failed_dataset_isolated_witness :
    collectResults false false exampleOutcome (["a"] ++ "bad" :: ["b"])
      = collectResults false false exampleOutcome (["a"] ++ ["b"]) :=
  (C8_failed_dataset_isolated false false exampleOutcome ["a"] ["b"] "bad" rfl).1

theorem delaySeq_pos : ∀ n, 0 < delaySeq n := by
  intro n
  induction n with
  | zero => norm_num [delaySeq]
  | succ n ih =>
    simp only [delaySeq]
    exact lt_min (by norm_num) (by positivity)

theorem elapsedAfter_le_add : ∀ (i n : ℕ), elapsedAfter i ≤ elapsedAfter (i + n) := by
  intro i n
  induction n with
  | zero => simp
  | succ n ih =>
    have h : elapsedAfter (i + (n + 1)) = elapsedAfter (i + n) + delaySeq (i + n) := rfl
    rw [h]
    exact le_trans ih (le_add_of_nonneg_right (delaySeq_pos _).le)

theorem loop_skip_notReady (rest : List PollResponse) (timeout : ℚ) :
    ∀ (n i : ℕ), elapsedAfter (i + n) ≤ timeout →
      fetch_query_result_loop (List.replicate n .notReady ++ rest) timeout
          (elapsedAfter i) (delaySeq i)
        = fetch_query_result_loop rest timeout (elapsedAfter (i + n)) (delaySeq (i + n)) := by
  intro n
  induction n with
  | zero => intro i _; simp
  | succ n ih =>
    intro i h
    have harith : i + (n + 1) = (i + 1) + n := by omega
    rw [harith] at h
    simp only [List.replicate_succ, List.cons_append, fetch_query_result_loop]
    have he : elapsedAfter i + delaySeq i = elapsedAfter (i + 1) := rfl
    have hd : min 5 (delaySeq i * (3 / 2)) = delaySeq (i + 1) := rfl
    rw [he, hd]
    have hle : elapsedAfter (i + 1) ≤ timeout :=
      le_trans (elapsedAfter_le_add (i + 1) n) h
    rw [if_neg (not_lt.mpr hle)]
    rw [harith]
    exact ih (i + 1) h

theorem loop_timeout_notReady (rest : List PollResponse) (timeout : ℚ) :
    ∀ (n i : ℕ), elapsedAfter i ≤ timeout → timeout < elapsedAfter (i + n) →
      fetch_query_result_loop (List.replicate n .notReady ++ rest) timeout
          (elapsedAfter i) (delaySeq i) = .timeoutErr := by
  intro n
  induction n with
  | zero =>
    intro i h1 h2
    simp only [Nat.add_zero] at h2
    exact absurd h2 (not_lt.mpr h1)
  | succ n ih =>
    intro i h1 h2
    simp only [List.replicate_succ, List.cons_append, fetch_query_result_loop]
    have he : elapsedAfter i + delaySeq i = elapsedAfter (i + 1) := rfl
    rw [he]
    by_cases hgt : elapsedAfter (i + 1) > timeout
    · rw [if_pos hgt]
    · rw [if_neg hgt]
      have hd : min 5 (delaySeq i * (3 / 2)) = delaySeq (i + 1) := rfl
      rw [hd]
      exact ih (i + 1) (not_lt.mp hgt) (by rw [show (i + 1) + n = i + (n + 1) by omega]; exact h2)

/-- Claim C9: the poll loop returns the ready payload after any finite
prefix of not-ready responses followed by a ready response, provided the
backoff time accumulated over the prefix stays within the timeout; raises
the permanent not-found failure immediately on a 404 response, without
polling the remaining responses; raises the permanent unexpected-status
failure on any other status; and raises the timeout failure when the
elapsed time exceeds the timeout while responses are still not-ready. -/
theorem C9_poll_protocol :
    (∀ (n : ℕ) (p : List String) (rest : List PollResponse) (timeout : ℚ),
        elapsedAfter n ≤ timeout →
        fetch_query_result (List.replicate n .notReady ++ .ready p :: rest) timeout
          = .success p)
    ∧ (∀ (n : ℕ) (rest : List PollResponse) (timeout : ℚ),
        elapsedAfter n ≤ timeout →
        fetch_query_result (List.replicate n .notReady ++ .notFound :: rest) timeout
          = .notFoundErr)
    ∧ (∀ (n : ℕ) (c : ℕ) (rest : List PollResponse) (timeout : ℚ),
        elapsedAfter n ≤ timeout →
        fetch_query_result (List.replicate n .notReady ++ .other c :: rest) timeout
          = .unexpectedErr c)
    ∧ (∀ (n : ℕ) (rest : List PollResponse) (timeout : ℚ),
        0 ≤ timeout → timeout < elapsedAfter n →
        fetch_query_result (List.replicate n .notReady ++ rest) timeout = .timeoutErr) := by
  have hstart : ∀ (l : List PollResponse) (timeout : ℚ),
      fetch_query_result l timeout = fetch_query_result_loop l timeout (elapsedAfter 0) (delaySeq 0) := by
    intro l timeout; rfl
  refine ⟨?_, ?_, ?_, ?_⟩
  · intro n p rest timeout h
    rw [hstart, loop_skip_notReady _ _ n 0 (by simpa using h)]
    rfl
  · intro n rest timeout h
    rw [hstart, loop_skip_notReady _ _ n 0 (by simpa using h)]
    rfl
  · intro n c rest timeout h
    rw [hstart, loop_skip_notReady _ _ n 0 (by simpa using h)]
    rfl
  · intro n rest timeout h0 hn
    rw [hstart]
    exact loop_timeout_notReady rest timeout n 0 (by simpa using h0) (by simpa using hn)

/-- Witness for C9: all four poll outcomes at concrete response sequences
and timeouts. -/
theorem C9_poll_protocol_witness :
    fetch_query_result [.notReady, .ready ["rec1"]] 120 = .success ["rec1"]
    ∧ fetch_query_result [.notFound] 120 = .notFoundErr
    ∧ fetch_query_result [.notReady, .other 500] 120 = .unexpectedErr 500
    ∧ fetch_query_result [.notReady, .notReady] (1 / 2) = .timeoutErr := by
  refine ⟨?_, ?_, ?_, ?_⟩
  · exact C9_poll_protocol.1 1 ["rec1"] [] 120 (by norm_num [elapsedAfter, delaySeq])
  · exact C9_poll_protocol.2.1 0 [] 120 (by norm_num [elapsedAfter])
  · exact C9_poll_protocol.2.2.1 1 500 [] 120 (by norm_num [elapsedAfter, delaySeq])
  · exact C9_poll_protocol.2.2.2 2 [] (1 / 2) (by norm_num)
      (by norm_num [elapsedAfter, delaySeq, min_def])

/-- Claim C10: `shout` returns the uppercase of its input whenever the
input is a string, and raises `TypeError` exactly when the input is not a
string — it never fails on a string input. -/
theorem C10_shout_type_dispatch :
    (∀ s, shout (.str s) = .ok (pyUpper s))
    ∧ (∀ t, shout (.nonStr t) = .error "TypeError: s must be a string")
    ∧ (∀ x : PyVal, (∃ msg, shout x = .error msg) ↔ ∀ s, x ≠ .str s) := by
  refine ⟨fun _ => rfl, fun _ => rfl, fun x => ?_⟩
  cases x with
  | str s =>
    constructor
    · rintro ⟨msg, hmsg⟩
      exact absurd hmsg (by simp [shout])
    · intro hall
      exact absurd rfl (hall s)
  | nonStr t =>
    constructor
    · intro _ s2 hx
      exact PyVal.noConfusion hx
    · intro _
      exact ⟨"TypeError: s must be a string", rfl⟩
